import Mathlib

/-
Shallow embedding of the AT24CXX EEPROM driver (src/at24cxx.cpp, src/at24cxx.h).

Modelling conventions:
- Machine integers are `Nat` with explicit `% 2^w` at each narrowing cast of the
  C++ source (`(uint8_t)`, `(uint16_t)`).  Where the source computes in `int`
  (C integer promotion) and the value can be negative, the embedding uses `Int`
  with `Int.tdiv`, which truncates toward zero exactly as C99 `/` does.
- The I2C transport, the GPIO pin and the delay primitive are external
  collaborators: each call the driver makes to them is recorded as a
  `BusEvent` in an event trace, in program order.  A data-transfer function
  returns the `bool` result of the C++ method together with its trace.
- Buffers are modelled by indices: a bus write carries the source offset
  `bytes_sent` (the pointer `&vals[bytes_sent]`) and the chunk length, which
  determines the transferred slice of the caller's buffer.
- The driver object `AT24CXX` holds exactly the fields of the C++ class that
  the data path reads or writes (`_chip_size`, `_chip_addr`, `_page_size`,
  `_addr_bytes`, `_addr_ov_bits`, `_wp_pin` id, `_mode`).  The C++ methods
  mutate no member except `_mode` (written only by `init`), so `writeN`,
  `readN`, `setWriteProtect` and `clearWriteProtect` return only their result
  and trace: the device value itself is unchanged by construction.
-/

/-- Calls the driver makes to its external collaborators (I2C transport, GPIO,
delay), recorded in program order.  `busWrite w inChip srcIdx len` is
`_i2c.write(inChip, &vals[srcIdx], len)` with an in-chip address of `w` bytes
on the wire; `busWriteRead` is the combined `_i2c.writeRead(...)` transaction. -/
inductive BusEvent where
  | i2cInit : BusEvent
  | setAddress : Nat → BusEvent
  | busWrite : Nat → Nat → Nat → Nat → BusEvent
  | busWriteRead : Nat → Nat → Nat → BusEvent
  | delayMs : Nat → BusEvent
  | pinMode : Nat → Bool → BusEvent
  | digitalWrite : Nat → Bool → BusEvent
deriving DecidableEq

/-- Chip selection constant: `AT24C01 = 128 | (8 << 20) | (1 << 28) | (0 << 30)`. -/
def AT24C01 : Nat := 128 ||| (8 <<< 20) ||| (1 <<< 28) ||| (0 <<< 30)

/-- Chip selection constant for the AT24C02 (256 B, 8 B pages). -/
def AT24C02 : Nat := 256 ||| (8 <<< 20) ||| (1 <<< 28) ||| (0 <<< 30)

/-- Chip selection constant for the AT24C04 (512 B, 16 B pages, 1 overflow bit). -/
def AT24C04 : Nat := 512 ||| (16 <<< 20) ||| (1 <<< 28) ||| (1 <<< 30)

/-- Chip selection constant for the AT24C08 (1024 B, 16 B pages, 2 overflow bits). -/
def AT24C08 : Nat := 1024 ||| (16 <<< 20) ||| (1 <<< 28) ||| (2 <<< 30)

/-- Chip selection constant for the AT24C16 (2048 B, 16 B pages, 3 overflow bits). -/
def AT24C16 : Nat := 2048 ||| (16 <<< 20) ||| (1 <<< 28) ||| (3 <<< 30)

/-- Chip selection constant for the AT24C32 (4096 B, 32 B pages, 2 address bytes). -/
def AT24C32 : Nat := 4096 ||| (32 <<< 20) ||| (2 <<< 28) ||| (0 <<< 30)

/-- Chip selection constant for the AT24C64 (8192 B, 32 B pages, 2 address bytes). -/
def AT24C64 : Nat := 8192 ||| (32 <<< 20) ||| (2 <<< 28) ||| (0 <<< 30)

/-- Chip selection constant for the AT24C128 (16384 B, 64 B pages, 2 address bytes). -/
def AT24C128 : Nat := 16384 ||| (64 <<< 20) ||| (2 <<< 28) ||| (0 <<< 30)

/-- Chip selection constant for the AT24C256 (32768 B, 64 B pages, 2 address bytes). -/
def AT24C256 : Nat := 32768 ||| (64 <<< 20) ||| (2 <<< 28) ||| (0 <<< 30)

/-- Chip selection constant for the AT24C512 (65536 B, 128 B pages, 2 address bytes). -/
def AT24C512 : Nat := 65536 ||| (128 <<< 20) ||| (2 <<< 28) ||| (0 <<< 30)

/-- The ten chip selection constants exported by the driver. -/
def at24ChipList : List Nat :=
  [AT24C01, AT24C02, AT24C04, AT24C08, AT24C16,
   AT24C32, AT24C64, AT24C128, AT24C256, AT24C512]

/-- Fixed 7-bit I2C base address `AT24CXX_ADDR = 0x50`. -/
def AT24CXX_ADDR : Nat := 0x50

/-- Datasheet write-cycle settle time, `EEPROM_WRITE_CYCLE_TIME_MS = 5`. -/
def EEPROM_WRITE_CYCLE_TIME_MS : Nat := 5

/-- State of one `AT24CXX` driver object: the member fields of the C++ class
that the data path uses.  `wpPin` is the stored GPIO pin id (a `uint8_t`;
callers pass `-1`, i.e. `255`, for "no write-protect pin").  `mode` is the
`uint8_t _mode` member. -/
structure AT24CXX where
  chipSize : Nat
  chipAddr : Nat
  pageSize : Nat
  addrBytes : Nat
  addrOvBits : Nat
  wpPin : Nat
  mode : Nat
deriving DecidableEq

/-- Constructor `AT24CXX::AT24CXX(i2c_bus, chip, chip_addr, wp_pin)`: decodes the
packed chip descriptor and initializes `_mode` with the raw `wp_pin` value.
`chipAddrArg` and `wpPinArg` arrive as `uint8_t` (hence the `% 256`). -/
def mkAT24CXX (chip chipAddrArg wpPinArg : Nat) : AT24CXX :=
  { chipSize := chip &&& 0x0001FFFF
  , chipAddr := (AT24CXX_ADDR ||| (chipAddrArg % 256 &&& 0x07)) % 256
  , pageSize := ((chip &&& 0x0FF00000) >>> 20) % 256
  , addrBytes := ((chip &&& 0x30000000) >>> 28) % 256
  , addrOvBits := ((chip &&& 0xC0000000) >>> 30) % 256
  , wpPin := wpPinArg % 256
  , mode := wpPinArg % 256 }

/-- Method `AT24CXX::init()`: calls `_i2c.init()`, then tests `_mode != -1`
(an `int` comparison of the `uint8_t` `_mode` against `-1`), configuring the
write-protect pin and entering mode 2 when true, else entering mode 1. -/
def AT24CXX.init (dev : AT24CXX) : AT24CXX × List BusEvent :=
  if (dev.mode : Int) ≠ -1 then
    ({ dev with mode := 2 },
      [BusEvent.i2cInit, BusEvent.pinMode dev.wpPin true,
       BusEvent.digitalWrite dev.wpPin false])
  else
    ({ dev with mode := 1 }, [BusEvent.i2cInit])

/-- Method `AT24CXX::setWriteProtect()`: drives the pin high when `2 == _mode`. -/
def AT24CXX.setWriteProtect (dev : AT24CXX) : List BusEvent :=
  if dev.mode = 2 then [BusEvent.digitalWrite dev.wpPin true] else []

/-- Method `AT24CXX::clearWriteProtect()`: drives the pin low when `2 == _mode`. -/
def AT24CXX.clearWriteProtect (dev : AT24CXX) : List BusEvent :=
  if dev.mode = 2 then [BusEvent.digitalWrite dev.wpPin false] else []

/-- The bus-address folding computed inside `writeN`/`readN`:
`(uint8_t)((_chip_addr & 0xF8) | ((logical & 0x0700) >> 8))`. -/
def foldBusAddr (chipAddr logical : Nat) : Nat :=
  ((chipAddr &&& 0xF8) ||| ((logical &&& 0x0700) >>> 8)) % 256

/-- The page size `writeN` actually uses: `_page_size`, clamped to 16 when
`(_addr_bytes > 1) && (len > 30)`. -/
def effPageSize (addrBytes pageSize len : Nat) : Nat :=
  if 1 < addrBytes ∧ 30 < len then 16 else pageSize

/-- The loop bound of `writeN`:
`pages_req = (((len + offset - 1) / page_size) + 1)` computed in C `int`
arithmetic, where `/` truncates toward zero (`Int.tdiv`); the non-negative
result is then stored in a `uint16_t` (the value never reaches `2^16`). -/
def pagesReq (len offset pageSize : Nat) : Nat :=
  (Int.tdiv ((len : Int) + (offset : Int) - 1) (pageSize : Int)).toNat + 1

/-- Body of the `for (i = 0; i < pages_req; i++)` loop of `writeN`, with the
loop counter as fuel.  Per iteration: when `_addr_ov_bits` is nonzero, fold the
current write pointer into the bus address and call `_i2c.setAddress`; compute
`chunk = (page_size - offset) < (len - bytes_sent) ? ... : ...` (both operands
are non-negative here because `offset < page_size` and `bytes_sent ≤ len` hold
throughout, so `Nat` subtraction agrees with the C `int` subtraction); issue the
width-dependent `_i2c.write`; advance `bytes_sent`, zero `offset`, and delay. -/
def writeLoop (chipAddr addrBytes addrOvBits address len pageSize : Nat) :
    Nat → Nat → Nat → List BusEvent
  | 0, _, _ => []
  | fuel + 1, bytesSent, offset =>
    let chunk := if pageSize - offset < len - bytesSent then pageSize - offset
                 else len - bytesSent
    (if addrOvBits ≠ 0 then
       [BusEvent.setAddress (foldBusAddr chipAddr (address + bytesSent))]
     else [])
    ++ [(if 1 < addrBytes then
           BusEvent.busWrite 2 ((address + bytesSent) % 65536) bytesSent chunk
         else
           BusEvent.busWrite 1 ((address + bytesSent) % 256) bytesSent chunk),
        BusEvent.delayMs EEPROM_WRITE_CYCLE_TIME_MS]
    ++ writeLoop chipAddr addrBytes addrOvBits address len pageSize fuel
         (bytesSent + chunk) 0

/-- Method `AT24CXX::writeN(address, vals, len)`: on `_mode && (address + len
<= _chip_size)` it runs the chunking loop and returns `true`, else it returns
`false` having touched nothing. -/
def AT24CXX.writeN (dev : AT24CXX) (address len : Nat) : Bool × List BusEvent :=
  if dev.mode ≠ 0 ∧ address + len ≤ dev.chipSize then
    (true,
      writeLoop dev.chipAddr dev.addrBytes dev.addrOvBits address len
        (effPageSize dev.addrBytes dev.pageSize len)
        (pagesReq len (address % effPageSize dev.addrBytes dev.pageSize len)
          (effPageSize dev.addrBytes dev.pageSize len))
        0
        (address % effPageSize dev.addrBytes dev.pageSize len))
  else
    (false, [])

/-- Method `AT24CXX::readN(address, vals, len)`: on `_mode && (address + len
<= _chip_size)` it folds the starting address (when `_addr_ov_bits` is
nonzero), issues one width-dependent `_i2c.writeRead`, and returns `true`;
else it returns `false` having touched nothing. -/
def AT24CXX.readN (dev : AT24CXX) (address len : Nat) : Bool × List BusEvent :=
  if dev.mode ≠ 0 ∧ address + len ≤ dev.chipSize then
    (true,
      (if dev.addrOvBits ≠ 0 then
         [BusEvent.setAddress (foldBusAddr dev.chipAddr (address + 0))]
       else [])
      ++ [(if 1 < dev.addrBytes then
             BusEvent.busWriteRead 2 (address % 65536) len
           else
             BusEvent.busWriteRead 1 (address % 256) len)])
  else
    (false, [])

/-- Extracts from an event the chunk it transfers, as the pair
(logical start address, chunk length); the source index recorded in a
`busWrite` event is exactly `bytes_sent`, so the chunk starts at
`address + bytes_sent`. -/
def chunkOfEvent (address : Nat) : BusEvent → Option (Nat × Nat)
  | BusEvent.busWrite _ _ srcIdx len => some (address + srcIdx, len)
  | _ => none

/-- The chunk sequence a write request is split into: the `(start, length)`
pairs of the bus write transactions `writeN` issues, in order. -/
def AT24CXX.writeChunks (dev : AT24CXX) (address len : Nat) : List (Nat × Nat) :=
  (dev.writeN address len).2.filterMap (chunkOfEvent address)

/-- Reference chunk plan (spec 4.3, step 3): with `n` chunks to go, the next
chunk transfers `min (eps - offset) remaining` bytes starting at source offset
`bytesSent`, and `offset` is 0 for all chunks after the first.  Entries are
`(bytes_sent, chunk_size)` pairs. -/
def planChunks (eps : Nat) : Nat → Nat → Nat → Nat → List (Nat × Nat)
  | 0, _, _, _ => []
  | n + 1, bytesSent, remaining, offset =>
    (bytesSent, min (eps - offset) remaining)
      :: planChunks eps n (bytesSent + min (eps - offset) remaining)
           (remaining - min (eps - offset) remaining) 0

/-- Ceiling division on `Nat`. -/
def ceilDiv (m k : Nat) : Nat := (m + k - 1) / k

/-- The chunk sequence the spec's chunking algorithm (spec 4.3) prescribes for
a write of `len` bytes at `address` with effective page size `eps`:
`ceil((len + offset) / eps)` chunks, the i-th starting at `address +
bytes_sent`. -/
def specChunks (eps address len : Nat) : List (Nat × Nat) :=
  (planChunks eps (ceilDiv (len + address % eps) eps) 0 len (address % eps)).map
    (fun c => (address + c.1, c.2))

/-- Decides that a chunk list partitions `[start, start + len)` in increasing
address order: each chunk is nonempty, begins exactly where the previous one
ended (the first at `start`), and the lengths sum to `len`. -/
def chunksPartition : Nat → Nat → List (Nat × Nat) → Bool
  | _, len, [] => len == 0
  | start, len, c :: rest =>
    c.1 == start && decide (0 < c.2) && decide (c.2 ≤ len)
      && chunksPartition (start + c.2) (len - c.2) rest

/-- The events one loop iteration of `writeN` contributes for the chunk
`c = (bytes_sent, size)`: the per-chunk `setAddress` (when overflow bits are in
use), the width-dependent bus write, and the settle delay. -/
def chunkBlock (chipAddr addrBytes addrOvBits address : Nat) (c : Nat × Nat) :
    List BusEvent :=
  (if addrOvBits ≠ 0 then
     [BusEvent.setAddress (foldBusAddr chipAddr (address + c.1))]
   else [])
  ++ [(if 1 < addrBytes then
         BusEvent.busWrite 2 ((address + c.1) % 65536) c.1 c.2
       else
         BusEvent.busWrite 1 ((address + c.1) % 256) c.1 c.2),
      BusEvent.delayMs EEPROM_WRITE_CYCLE_TIME_MS]

/-- The events `writeN` emits for the chunk starting at logical address `a`
with size `s`, on a one-address-byte chip that uses overflow bits: the bus
identity is recomputed from `a` itself and set before the data transaction. -/
def chunkTrace1 (chipAddr address : Nat) (c : Nat × Nat) : List BusEvent :=
  [BusEvent.setAddress (foldBusAddr chipAddr c.1),
   BusEvent.busWrite 1 (c.1 % 256) (c.1 - address) c.2,
   BusEvent.delayMs EEPROM_WRITE_CYCLE_TIME_MS]

/-- A device constructed from `chip` with externally biased address `ca` and no
write-protect pin (`wp_pin = -1`, stored as `255`), after `init()`. -/
def initDev (chip ca : Nat) : AT24CXX := ((mkAT24CXX chip ca 255).init).1

/-- Decides the profile invariants of spec section 3 for the device the
constructor builds from descriptor `chip`. -/
def profileInvariants (chip : Nat) : Bool :=
  let d := mkAT24CXX chip 0 255
  decide (0 < d.chipSize) && decide (d.chipSize ≤ 65536)
    && [8, 16, 32, 64, 128].contains d.pageSize
    && [1, 2].contains d.addrBytes
    && decide (d.addrOvBits ≤ 3)
    && (d.addrOvBits == 0 || d.addrBytes == 1)

/-- The three chip profiles that use address-overflow bits (one address byte,
`_addr_ov_bits > 0`). -/
def foldChipList : List Nat := [AT24C04, AT24C08, AT24C16]

/-- A C-style conditional minimum equals `min`. -/
lemma ite_lt_eq_min (a b : Nat) : (if a < b then a else b) = min a b := by
  split <;> omega

/-- Truncating division of non-negative operands agrees with `Nat` division. -/
lemma tdiv_ofNat (m n : Nat) :
    Int.tdiv (Int.ofNat m) (Int.ofNat n) = Int.ofNat (m / n) := rfl

/-- For a transfer with `len + offset ≥ 1`, the loop bound of `writeN` is the
ceiling of `(len + offset) / page_size`. -/
lemma pagesReq_eq_ceilDiv (len offset ps : Nat) (h : 0 < len + offset)
    (hps : 0 < ps) : pagesReq len offset ps = ceilDiv (len + offset) ps := by
  unfold pagesReq ceilDiv
  have h1 : (len : Int) + (offset : Int) - 1 = ((len + offset - 1 : Nat) : Int) := by
    omega
  rw [h1, show ((len + offset - 1 : Nat) : Int) = Int.ofNat (len + offset - 1) from rfl,
    show ((ps : Nat) : Int) = Int.ofNat ps from rfl, tdiv_ofNat,
    show (Int.ofNat ((len + offset - 1) / ps)).toNat = (len + offset - 1) / ps from rfl]
  rw [show len + offset + ps - 1 = (len + offset - 1) + ps by omega,
    Nat.add_div_right _ hps]

/-- For a zero-length transfer the loop bound of `writeN` is 1, not 0: the C
`int` expression `(len + offset - 1) / page_size` truncates toward zero. -/
lemma pagesReq_zero_len (offset ps : Nat) (hps : 0 < ps) (hoff : offset < ps) :
    pagesReq 0 offset ps = 1 := by
  unfold pagesReq
  rcases Nat.eq_zero_or_pos offset with h | h
  · subst h
    rw [show ((0 : Nat) : Int) + ((0 : Nat) : Int) - 1 = -1 by norm_num,
      show ((ps : Nat) : Int) = Int.ofNat ps from rfl,
      show Int.tdiv (-1) (Int.ofNat ps) = -Int.ofNat (1 / ps) from rfl]
    rcases Nat.lt_or_ge 1 ps with hp | hp
    · rw [Nat.div_eq_of_lt hp]; rfl
    · interval_cases ps
      rfl
  · rw [show ((0 : Nat) : Int) + (offset : Int) - 1 = ((offset - 1 : Nat) : Int) by
      omega,
      show ((offset - 1 : Nat) : Int) = Int.ofNat (offset - 1) from rfl,
      show ((ps : Nat) : Int) = Int.ofNat ps from rfl, tdiv_ofNat,
      Nat.div_eq_of_lt (by omega)]
    rfl

/-- Each iteration of the `writeN` loop emits exactly the events `chunkBlock`
prescribes for its `(bytes_sent, chunk)` pair, and the pairs are those of
`planChunks`: the loop's conditional chunk size is `min (page_size - offset)
(len - bytes_sent)`, and the remaining length decreases by the chunk size. -/
lemma writeLoop_eq_blocks (chipAddr addrBytes addrOvBits address len ps : Nat) :
    ∀ fuel bytesSent offset,
      writeLoop chipAddr addrBytes addrOvBits address len ps fuel bytesSent offset
        = ((planChunks ps fuel bytesSent (len - bytesSent) offset).map
            (chunkBlock chipAddr addrBytes addrOvBits address)).flatten := by
  intro fuel
  induction fuel with
  | zero => intro bs offset; simp [writeLoop, planChunks]
  | succ n ih =>
    intro bs offset
    have hchunk : (if ps - offset < len - bs then ps - offset else len - bs)
        = min (ps - offset) (len - bs) := ite_lt_eq_min _ _
    simp only [writeLoop, planChunks, hchunk, List.map_cons, List.flatten_cons]
    rw [ih (bs + min (ps - offset) (len - bs)) 0,
      show len - (bs + min (ps - offset) (len - bs))
          = len - bs - min (ps - offset) (len - bs) from Nat.sub_add_eq len bs _]
    simp [chunkBlock]

/-- The only chunk-carrying event of a chunk block is its bus write. -/
lemma filterMap_chunkBlock (address chipAddr ab ov : Nat) (c : Nat × Nat) :
    (chunkBlock chipAddr ab ov address c).filterMap (chunkOfEvent address)
      = [(address + c.1, c.2)] := by
  unfold chunkBlock
  by_cases hov : ov ≠ 0 <;> by_cases hab : 1 < ab <;>
    simp [hov, hab, chunkOfEvent, List.filterMap_append]

/-- Filtering a flattened list of blocks filters each block. -/
lemma filterMap_flatten (f : BusEvent → Option (Nat × Nat))
    (g : Nat × Nat → List BusEvent) (l : List (Nat × Nat)) :
    (l.map g).flatten.filterMap f = (l.map fun c => (g c).filterMap f).flatten := by
  induction l with
  | nil => simp
  | cons c t ih => simp [List.filterMap_append, ih]

/-- Flattening singletons is mapping. -/
lemma flatten_singletons (h : Nat × Nat → Nat × Nat) (l : List (Nat × Nat)) :
    (l.map fun c => [h c]).flatten = l.map h := by
  induction l with
  | nil => rfl
  | cons c t ih => simp [ih]

/-- A valid `writeN` returns `true` and emits exactly the concatenation of the
per-chunk blocks of the `planChunks` plan. -/
lemma writeN_valid (dev : AT24CXX) (address len : Nat) (hmode : dev.mode ≠ 0)
    (hval : address + len ≤ dev.chipSize) :
    dev.writeN address len = (true,
      ((planChunks (effPageSize dev.addrBytes dev.pageSize len)
          (pagesReq len (address % effPageSize dev.addrBytes dev.pageSize len)
            (effPageSize dev.addrBytes dev.pageSize len))
          0 len (address % effPageSize dev.addrBytes dev.pageSize len)).map
        (chunkBlock dev.chipAddr dev.addrBytes dev.addrOvBits address)).flatten) := by
  unfold AT24CXX.writeN
  rw [if_pos ⟨hmode, hval⟩, writeLoop_eq_blocks, Nat.sub_zero]

/-- The chunk sequence of a valid write is the `planChunks` plan, with sources
`bytes_sent` turned into logical addresses `address + bytes_sent`. -/
lemma writeChunks_valid (dev : AT24CXX) (address len : Nat) (hmode : dev.mode ≠ 0)
    (hval : address + len ≤ dev.chipSize) :
    dev.writeChunks address len
      = (planChunks (effPageSize dev.addrBytes dev.pageSize len)
          (pagesReq len (address % effPageSize dev.addrBytes dev.pageSize len)
            (effPageSize dev.addrBytes dev.pageSize len))
          0 len (address % effPageSize dev.addrBytes dev.pageSize len)).map
        (fun c => (address + c.1, c.2)) := by
  unfold AT24CXX.writeChunks
  rw [writeN_valid dev address len hmode hval]
  dsimp only
  rw [filterMap_flatten]
  simp only [filterMap_chunkBlock]
  exact flatten_singletons _ _

/-- The plan always has exactly as many chunks as it is given fuel. -/
lemma planChunks_length (eps : Nat) :
    ∀ n bs rem offset, (planChunks eps n bs rem offset).length = n := by
  intro n
  induction n with
  | zero => intro bs rem offset; rfl
  | succ n ih => intro bs rem offset; simp [planChunks, ih]

/-- Ceiling division of a positive number by a positive number is positive. -/
lemma ceilDiv_pos (m k : Nat) (hm : 0 < m) (hk : 0 < k) : 0 < ceilDiv m k := by
  unfold ceilDiv
  have h1 : k / k ≤ (m + k - 1) / k := Nat.div_le_div_right (by omega)
  rw [Nat.div_self hk] at h1
  omega

/-- Ceiling division is 1 on the interval `[1, k]`. -/
lemma ceilDiv_eq_one (m k : Nat) (hk : 0 < k) (h1 : 1 ≤ m) (h2 : m ≤ k) :
    ceilDiv m k = 1 := by
  unfold ceilDiv
  rw [show m + k - 1 = (m - 1) + k by omega, Nat.add_div_right _ hk,
    Nat.div_eq_of_lt (by omega)]

/-- Peeling one full page off a transfer drops the ceiling count by one. -/
lemma ceilDiv_step (rem offset k : Nat) (hk : 0 < k) (hoff : offset < k)
    (hlt : k - offset < rem) :
    ceilDiv (rem + offset) k = ceilDiv (rem - (k - offset)) k + 1 := by
  unfold ceilDiv
  rw [show rem + offset + k - 1 = ((rem - (k - offset)) + k - 1) + k by omega,
    Nat.add_div_right _ hk]

/-- When the plan is given the ceiling count as fuel and a positive remaining
length, its chunks tile `[address + bs, address + bs + rem)` gaplessly in
increasing order, each chunk nonempty. -/
lemma planChunks_partition (eps : Nat) (heps : 0 < eps) (address : Nat) :
    ∀ n bs rem offset, offset < eps → 0 < rem →
      n = ceilDiv (rem + offset) eps →
      chunksPartition (address + bs) rem
        ((planChunks eps n bs rem offset).map (fun c => (address + c.1, c.2)))
        = true := by
  intro n
  induction n with
  | zero =>
    intro bs rem offset hoff hrem hn
    exact absurd hn.symm
      (by have := ceilDiv_pos (rem + offset) eps (by omega) heps; omega)
  | succ n ih =>
    intro bs rem offset hoff hrem hn
    have hminr : min (eps - offset) rem ≤ rem := Nat.min_le_right _ _
    have hpos : 0 < min (eps - offset) rem := by omega
    simp only [planChunks, List.map_cons, chunksPartition, Bool.and_eq_true,
      beq_self_eq_true, decide_eq_true_eq, true_and]
    refine ⟨⟨hpos, hminr⟩, ?_⟩
    by_cases hc : rem ≤ eps - offset
    · have hs : min (eps - offset) rem = rem := Nat.min_eq_right hc
      have hn1 : n = 0 := by
        have h1 : ceilDiv (rem + offset) eps = 1 :=
          ceilDiv_eq_one _ _ heps (by omega) (by omega)
        omega
      subst hn1
      rw [hs]
      simp [planChunks, chunksPartition]
    · push_neg at hc
      have hs : min (eps - offset) rem = eps - offset :=
        Nat.min_eq_left (Nat.le_of_lt hc)
      rw [hs]
      have hrec := ih (bs + (eps - offset)) (rem - (eps - offset)) 0
        (by omega) (by omega)
        (by rw [Nat.add_zero]
            rw [ceilDiv_step rem offset eps heps hoff hc] at hn
            omega)
      rw [show address + bs + (eps - offset) = address + (bs + (eps - offset)) from
        Nat.add_assoc address bs _]
      exact hrec

/-- Every `init()` leaves the device in mode 2: the guard `_mode != -1`
compares the `uint8_t` `_mode` (here 255, the stored `-1` sentinel) with the
`int` `-1`, which never holds, so the `_mode = 1` branch is dead. -/
lemma initDev_mode (chip ca : Nat) : (initDev chip ca).mode = 2 := rfl

/-- The mode of an initialized device is nonzero. -/
lemma initDev_mode_ne (chip ca : Nat) : (initDev chip ca).mode ≠ 0 := by
  rw [initDev_mode]
  omega

/-- Decoded field values of an initialized AT24C01 device. -/
lemma initDev_c01 (ca : Nat) :
    initDev AT24C01 ca = ⟨128, (0x50 ||| (ca % 256 &&& 0x07)) % 256, 8, 1, 0, 255, 2⟩ := rfl

/-- Decoded field values of an initialized AT24C02 device. -/
lemma initDev_c02 (ca : Nat) :
    initDev AT24C02 ca = ⟨256, (0x50 ||| (ca % 256 &&& 0x07)) % 256, 8, 1, 0, 255, 2⟩ := rfl

/-- Decoded field values of an initialized AT24C04 device. -/
lemma initDev_c04 (ca : Nat) :
    initDev AT24C04 ca = ⟨512, (0x50 ||| (ca % 256 &&& 0x07)) % 256, 16, 1, 1, 255, 2⟩ := rfl

/-- Decoded field values of an initialized AT24C08 device. -/
lemma initDev_c08 (ca : Nat) :
    initDev AT24C08 ca = ⟨1024, (0x50 ||| (ca % 256 &&& 0x07)) % 256, 16, 1, 2, 255, 2⟩ := rfl

/-- Decoded field values of an initialized AT24C16 device. -/
lemma initDev_c16 (ca : Nat) :
    initDev AT24C16 ca = ⟨2048, (0x50 ||| (ca % 256 &&& 0x07)) % 256, 16, 1, 3, 255, 2⟩ := rfl

/-- Decoded field values of an initialized AT24C32 device. -/
lemma initDev_c32 (ca : Nat) :
    initDev AT24C32 ca = ⟨4096, (0x50 ||| (ca % 256 &&& 0x07)) % 256, 32, 2, 0, 255, 2⟩ := rfl

/-- Decoded field values of an initialized AT24C64 device. -/
lemma initDev_c64 (ca : Nat) :
    initDev AT24C64 ca = ⟨8192, (0x50 ||| (ca % 256 &&& 0x07)) % 256, 32, 2, 0, 255, 2⟩ := rfl

/-- Decoded field values of an initialized AT24C128 device. -/
lemma initDev_c128 (ca : Nat) :
    initDev AT24C128 ca = ⟨16384, (0x50 ||| (ca % 256 &&& 0x07)) % 256, 64, 2, 0, 255, 2⟩ := rfl

/-- Decoded field values of an initialized AT24C256 device. -/
lemma initDev_c256 (ca : Nat) :
    initDev AT24C256 ca = ⟨32768, (0x50 ||| (ca % 256 &&& 0x07)) % 256, 64, 2, 0, 255, 2⟩ := rfl

/-- Decoded field values of an initialized AT24C512 device. -/
lemma initDev_c512 (ca : Nat) :
    initDev AT24C512 ca = ⟨65536, (0x50 ||| (ca % 256 &&& 0x07)) % 256, 128, 2, 0, 255, 2⟩ := rfl

/-- The decoded page size of every listed chip is positive. -/
lemma pageSize_pos : ∀ chip ∈ at24ChipList, ∀ ca : Nat,
    0 < (initDev chip ca).pageSize := by
  intro chip h ca
  fin_cases h <;>
    simp only [initDev_c01, initDev_c02, initDev_c04, initDev_c08, initDev_c16,
      initDev_c32, initDev_c64, initDev_c128, initDev_c256, initDev_c512] <;>
    omega

/-- The low-3-bit biasing of the base address stays below 8. -/
lemma and7_le (x : Nat) : x &&& 0x07 ≤ 7 := Nat.and_le_right

/-- Masking the constructed chip address with `0xF8` recovers the base `0x50`. -/
lemma base_and_F8 (e : Nat) (he : e ≤ 7) : ((0x50 ||| e) % 256) &&& 0xF8 = 0x50 := by
  interval_cases e <;> rfl

/-- Oring at most 3 low bits into `0x50` stays below 256, so the `uint8_t`
cast is the identity there. -/
lemma or_small_mod (d : Nat) (hd : d ≤ 7) : (0x50 ||| d) % 256 = 0x50 ||| d := by
  interval_cases d <;> rfl

/-- The folded high-address bits occupy at most 3 bits. -/
lemma shift_le_7 (l : Nat) : (l &&& 0x0700) >>> 8 ≤ 7 := by
  rw [Nat.shiftRight_eq_div_pow]
  have h1 : (l &&& 0x0700) / 2 ^ 8 ≤ 0x0700 / 2 ^ 8 :=
    Nat.div_le_div_right Nat.and_le_right
  norm_num at h1
  exact h1

/-- For a logical address below `2^(8+k)` with `k ≤ 3`, masking with `0x0700`
then shifting right by 8 equals shifting right by 8 then masking with
`2^k - 1`: the extra mask bits select only address bits that are zero. -/
lemma maskShift (k l : Nat) (hk : k ≤ 3) (hl : l < 2 ^ (8 + k)) :
    (l &&& 0x0700) >>> 8 = (l >>> 8) &&& (2 ^ k - 1) := by
  apply Nat.eq_of_testBit_eq
  intro i
  simp only [Nat.testBit_shiftRight, Nat.testBit_and, Nat.testBit_two_pow_sub_one]
  by_cases hik : i < k
  · have hi3 : i < 3 := by omega
    have h7 : Nat.testBit 0x0700 (8 + i) = true := by
      interval_cases i <;> decide
    simp [h7, hik]
  · have hbit : Nat.testBit l (8 + i) = false := by
      apply Nat.testBit_lt_two_pow
      calc l < 2 ^ (8 + k) := hl
        _ ≤ 2 ^ (8 + i) := Nat.pow_le_pow_right (by norm_num) (by omega)
    simp [hbit, hik]

/-- Masking with `0xFF` is reduction modulo 256. -/
lemma and_FF (x : Nat) : x &&& 0xFF = x % 256 := by
  have h := Nat.and_pow_two_sub_one_eq_mod x 8
  norm_num at h
  exact h

/-- On a device whose chip address was built by the constructor, the folding
of a logical address below `2^(8+k)` (with `k ≤ 3` overflow bits) matches the
specified formula `(bus_base & ~0x07) | ((logical >> 8) & ((1<<k)-1))`
(`& ~0x07` is `& 0xF8` on 8 bits). -/
lemma foldBusAddr_formula (ca l k : Nat) (hk : k ≤ 3) (hl : l < 2 ^ (8 + k)) :
    foldBusAddr ((0x50 ||| (ca % 256 &&& 0x07)) % 256) l
      = ((((0x50 ||| (ca % 256 &&& 0x07)) % 256) &&& 0xF8)
          ||| ((l >>> 8) &&& (2 ^ k - 1))) := by
  unfold foldBusAddr
  rw [base_and_F8 _ (and7_le _), maskShift k l hk hl]
  exact or_small_mod _ (by rw [← maskShift k l hk hl]; exact shift_le_7 l)

/-- A valid `readN` returns `true` and issues the optional address fold plus
exactly one combined write-address-then-read transaction, with no delay. -/
lemma readN_valid (dev : AT24CXX) (address len : Nat) (hmode : dev.mode ≠ 0)
    (hval : address + len ≤ dev.chipSize) :
    dev.readN address len = (true,
      (if dev.addrOvBits ≠ 0 then
         [BusEvent.setAddress (foldBusAddr dev.chipAddr address)]
       else [])
      ++ [(if 1 < dev.addrBytes then BusEvent.busWriteRead 2 (address % 65536) len
           else BusEvent.busWriteRead 1 (address % 256) len)]) := by
  unfold AT24CXX.readN
  rw [if_pos ⟨hmode, hval⟩, Nat.add_zero]

/-- A valid write with positive length realizes the spec chunk plan: the chunk
list equals `specChunks`, its length is `ceil((len + offset) / eps)`, and the
chunks tile `[address, address + len)` in increasing order. -/
lemma writeChunks_main (dev : AT24CXX) (address len : Nat) (hmode : dev.mode ≠ 0)
    (hps : 0 < dev.pageSize) (hlen : 0 < len) (hval : address + len ≤ dev.chipSize) :
    dev.writeChunks address len
        = specChunks (effPageSize dev.addrBytes dev.pageSize len) address len
      ∧ (dev.writeChunks address len).length
          = ceilDiv (len + address % effPageSize dev.addrBytes dev.pageSize len)
              (effPageSize dev.addrBytes dev.pageSize len)
      ∧ chunksPartition address len (dev.writeChunks address len) = true := by
  have heps : 0 < effPageSize dev.addrBytes dev.pageSize len := by
    unfold effPageSize
    split <;> omega
  have hoff := Nat.mod_lt address heps
  have hfuel : pagesReq len (address % effPageSize dev.addrBytes dev.pageSize len)
      (effPageSize dev.addrBytes dev.pageSize len)
      = ceilDiv (len + address % effPageSize dev.addrBytes dev.pageSize len)
          (effPageSize dev.addrBytes dev.pageSize len) :=
    pagesReq_eq_ceilDiv _ _ _ (by omega) heps
  have hch := writeChunks_valid dev address len hmode hval
  rw [hfuel] at hch
  refine ⟨by rw [hch]; rfl, by rw [hch, List.length_map, planChunks_length], ?_⟩
  rw [hch]
  have hpart := planChunks_partition (effPageSize dev.addrBytes dev.pageSize len)
    heps address
    (ceilDiv (len + address % effPageSize dev.addrBytes dev.pageSize len)
      (effPageSize dev.addrBytes dev.pageSize len))
    0 len (address % effPageSize dev.addrBytes dev.pageSize len) hoff hlen rfl
  simpa using hpart

/-- A valid zero-length write still issues exactly one (empty) chunk: the
optional address fold, one zero-length bus write, and one settle delay. -/
lemma writeN_len_zero (dev : AT24CXX) (address : Nat) (hmode : dev.mode ≠ 0)
    (hps : 0 < dev.pageSize) (hval : address ≤ dev.chipSize) :
    dev.writeN address 0 = (true,
      (if dev.addrOvBits ≠ 0 then
         [BusEvent.setAddress (foldBusAddr dev.chipAddr address)]
       else [])
      ++ [(if 1 < dev.addrBytes then BusEvent.busWrite 2 (address % 65536) 0 0
           else BusEvent.busWrite 1 (address % 256) 0 0),
          BusEvent.delayMs EEPROM_WRITE_CYCLE_TIME_MS]) := by
  unfold AT24CXX.writeN
  rw [if_pos ⟨hmode, by omega⟩]
  have heps : effPageSize dev.addrBytes dev.pageSize 0 = dev.pageSize := by
    unfold effPageSize
    rw [if_neg (by omega)]
  rw [heps, pagesReq_zero_len _ _ hps (Nat.mod_lt address hps)]
  simp [writeLoop]

/-- On a chip that folds address bits and uses one address byte, the trace of a
valid write is exactly: for each chunk in address order, a `setAddress` whose
bus address is folded from that chunk's own start address, the chunk's bus
write, and the settle delay. -/
lemma writeN_trace_fold (dev : AT24CXX) (address len : Nat) (hmode : dev.mode ≠ 0)
    (hval : address + len ≤ dev.chipSize) (hov : dev.addrOvBits ≠ 0)
    (hab : dev.addrBytes = 1) :
    (dev.writeN address len).2
      = ((dev.writeChunks address len).map
          (chunkTrace1 dev.chipAddr address)).flatten := by
  rw [writeChunks_valid dev address len hmode hval,
    writeN_valid dev address len hmode hval]
  dsimp only
  rw [List.map_map,
    show (chunkTrace1 dev.chipAddr address ∘ fun c : Nat × Nat => (address + c.1, c.2))
        = chunkBlock dev.chipAddr dev.addrBytes dev.addrOvBits address from
      funext fun c => by
        simp [Function.comp, chunkTrace1, chunkBlock, hov, hab]]

/-- C1 (amended): for every chip profile, every address, and every length with
1 ≤ length and address + length ≤ capacity, the write splits into exactly
ceil((length + offset) / effective_page_size) chunks following the spec plan
(chunk i starts at address + bytes_sent and has size min(eps - offset,
len - bytes_sent) with offset zeroed after the first chunk), and the chunks
partition [address, address + length) in increasing order; in particular with
page size 16, a write at address 15 of length 2 yields chunks (15,1), (16,1).
The original claim's count formula fails only at length = 0
(see the counterexample theorem). -/
theorem C1_write_chunk_split :
    (∀ chip ∈ at24ChipList, ∀ ca address len, 0 < len →
        address + len ≤ (initDev chip ca).chipSize →
        ((initDev chip ca).writeChunks address len
            = specChunks (effPageSize (initDev chip ca).addrBytes
                (initDev chip ca).pageSize len) address len
          ∧ ((initDev chip ca).writeChunks address len).length
              = ceilDiv (len + address % effPageSize (initDev chip ca).addrBytes
                    (initDev chip ca).pageSize len)
                  (effPageSize (initDev chip ca).addrBytes
                    (initDev chip ca).pageSize len)
          ∧ chunksPartition address len
              ((initDev chip ca).writeChunks address len) = true))
    ∧ (initDev AT24C04 0).writeChunks 15 2 = [(15, 1), (16, 1)] := by
  refine ⟨?_, by decide⟩
  intro chip hchip ca address len hlen hval
  exact writeChunks_main _ _ _ (initDev_mode_ne chip ca)
    (pageSize_pos chip hchip ca) hlen hval

/-- Witness for C1 at the claim's own instance: chip AT24C04 (page size 16),
address 15, length 2. -/
theorem C1_write_chunk_split_witness :
    (initDev AT24C04 0).writeChunks 15 2
        = specChunks (effPageSize (initDev AT24C04 0).addrBytes
            (initDev AT24C04 0).pageSize 2) 15 2
      ∧ ((initDev AT24C04 0).writeChunks 15 2).length
          = ceilDiv (2 + 15 % effPageSize (initDev AT24C04 0).addrBytes
                (initDev AT24C04 0).pageSize 2)
              (effPageSize (initDev AT24C04 0).addrBytes
                (initDev AT24C04 0).pageSize 2)
      ∧ chunksPartition 15 2 ((initDev AT24C04 0).writeChunks 15 2) = true :=
  C1_write_chunk_split.1 AT24C04 (by decide) 0 15 2 (by decide) (by decide)

/-- Counterexample to C1 as stated: at length 0 (which satisfies the claim's
precondition address + length ≤ capacity) the write emits one chunk, but
ceil((0 + offset) / eps) = 0, so the claimed chunk count is wrong there. -/
theorem C1_write_chunk_split_cex :
    0 + 0 ≤ (initDev AT24C02 0).chipSize
    ∧ ¬(((initDev AT24C02 0).writeChunks 0 0).length
        = ceilDiv (0 + 0 % effPageSize (initDev AT24C02 0).addrBytes
              (initDev AT24C02 0).pageSize 0)
            (effPageSize (initDev AT24C02 0).addrBytes
              (initDev AT24C02 0).pageSize 0)) := by
  decide

/-- C3: any request with address + length > capacity is rejected whole by both
`writeN` and `readN`: result `false`, an empty event trace (no `setAddress`,
no write, no read, no delay), and — since neither method writes any member
field — unchanged driver and chip state. -/
theorem C3_range_rejection :
    ∀ chip ∈ at24ChipList, ∀ ca address len,
      (initDev chip ca).chipSize < address + len →
      (initDev chip ca).writeN address len = (false, [])
      ∧ (initDev chip ca).readN address len = (false, []) := by
  intro chip _ ca address len h
  constructor
  · unfold AT24CXX.writeN
    rw [if_neg (fun hh => absurd hh.2 (by omega))]
  · unfold AT24CXX.readN
    rw [if_neg (fun hh => absurd hh.2 (by omega))]

/-- Witness for C3: AT24C01 (capacity 128), request at address 100 of length
100 overruns and is rejected with no bus activity. -/
theorem C3_range_rejection_witness :
    (initDev AT24C01 0).writeN 100 100 = (false, [])
    ∧ (initDev AT24C01 0).readN 100 100 = (false, []) :=
  C3_range_rejection AT24C01 (by decide) 0 100 100 (by decide)

/-- C4 is false of the code: a device constructed with the default
`wp_pin = -1` (stored as 255) has `_mode = 255 ≠ 0` before `init()` is ever
called, so `writeN`/`readN` pass the `_mode &&` guard, issue bus transactions
and return `true`.  This theorem evaluates the code at that failing input. -/
theorem C4_uninitialized_guard_broken :
    ((mkAT24CXX AT24C01 0 255).writeN 0 1).1 = true
    ∧ ((mkAT24CXX AT24C01 0 255).writeN 0 1).2
        = [BusEvent.busWrite 1 0 0 1, BusEvent.delayMs 5]
    ∧ ((mkAT24CXX AT24C01 0 255).readN 0 1).1 = true
    ∧ ((mkAT24CXX AT24C01 0 255).readN 0 1).2 = [BusEvent.busWriteRead 1 0 1] := by
  decide

/-- C5 (amended): the effective page size is 16 when address_byte_width > 1
and length > 30, and is the profile's page size otherwise (the two can
coincide: profiles whose own page size is 16 also chunk by 16 for small
requests, so "equals 16" does not imply the clamp condition); the concrete
scenario stands: on AT24C32 a 40-byte write at address 20 splits into chunks
(20,12), (32,16), (48,12) and succeeds. -/
theorem C5_eff_page_size :
    (∀ chip ∈ at24ChipList, ∀ ca len,
        ((1 < (initDev chip ca).addrBytes ∧ 30 < len) →
          effPageSize (initDev chip ca).addrBytes (initDev chip ca).pageSize len
            = 16)
      ∧ (¬(1 < (initDev chip ca).addrBytes ∧ 30 < len) →
          effPageSize (initDev chip ca).addrBytes (initDev chip ca).pageSize len
            = (initDev chip ca).pageSize))
    ∧ (initDev AT24C32 0).writeChunks 20 40 = [(20, 12), (32, 16), (48, 12)]
    ∧ ((initDev AT24C32 0).writeN 20 40).1 = true := by
  refine ⟨?_, by decide, by decide⟩
  intro chip _ ca len
  constructor
  · intro h
    unfold effPageSize
    rw [if_pos h]
  · intro h
    unfold effPageSize
    rw [if_neg h]

/-- Witness for C5: on AT24C32 (two address bytes) a 40-byte request clamps
the effective page size to 16. -/
theorem C5_eff_page_size_witness :
    effPageSize (initDev AT24C32 0).addrBytes (initDev AT24C32 0).pageSize 40
      = 16 :=
  (C5_eff_page_size.1 AT24C32 (by decide) 0 40).1 (by decide)

/-- Counterexample to C5's "if and only if": AT24C04 has address_byte_width 1,
yet for a length-5 request the effective page size is 16 (its own page size),
so "effective page size = 16" does not imply the clamp condition. -/
theorem C5_eff_page_size_cex :
    effPageSize (initDev AT24C04 0).addrBytes (initDev AT24C04 0).pageSize 5 = 16
    ∧ ¬(1 < (initDev AT24C04 0).addrBytes ∧ 30 < 5) := by
  decide

/-- C7 is false of the code after `init()`: before `init()` the mode (255) is
not 2, so `setWriteProtect`/`clearWriteProtect` do nothing; but `init()`
compares the `uint8_t` `_mode` with the `int` `-1`, which never holds, so even
a device constructed without a write-protect pin enters mode 2 — `init()`
already drives pin 255, and both protect methods then write the GPIO level.
This theorem evaluates the code at that failing input. -/
theorem C7_write_protect_not_gated :
    (mkAT24CXX AT24C01 0 255).setWriteProtect = []
    ∧ (mkAT24CXX AT24C01 0 255).clearWriteProtect = []
    ∧ ((mkAT24CXX AT24C01 0 255).init).2
        = [BusEvent.i2cInit, BusEvent.pinMode 255 true,
           BusEvent.digitalWrite 255 false]
    ∧ (initDev AT24C01 0).setWriteProtect = [BusEvent.digitalWrite 255 true]
    ∧ (initDev AT24C01 0).clearWriteProtect = [BusEvent.digitalWrite 255 false] := by
  decide

/-- C9: each of the ten chip constants decodes to a profile with
0 < capacity ≤ 65536, page size in {8,16,32,64,128}, address-byte width in
{1,2}, overflow-bit count in {0,1,2,3}, and overflow bits only with one
address byte. -/
theorem C9_profile_invariants : at24ChipList.all profileInvariants = true := by
  decide

/-- C2: on the overflow-bit profiles (AT24C04/08/16), for any bus bias and any
logical address within capacity, the folding used by both data paths equals
`(bus_base & ~0x07) | ((logical >> 8) & ((1<<k)-1))` (on 8 bits, `& ~0x07` is
`& 0xF8`), and the in-chip address on the wire is the single byte
`logical & 0xFF` — shown on `readN`, which emits exactly that translation
(`writeN` uses the same `foldBusAddr` per chunk, see the C6 theorem); in
particular on the 2048-byte profile with bus base 0x50, logical address 0x300
folds to bus address 0x53 with in-chip byte 0x00. -/
theorem C2_address_folding :
    (∀ chip ∈ foldChipList, ∀ ca logical len,
        logical < (initDev chip ca).chipSize →
        logical + len ≤ (initDev chip ca).chipSize →
        (foldBusAddr (initDev chip ca).chipAddr logical
            = (((initDev chip ca).chipAddr &&& 0xF8)
                ||| ((logical >>> 8) &&& (2 ^ (initDev chip ca).addrOvBits - 1)))
          ∧ (initDev chip ca).readN logical len
              = (true,
                 [BusEvent.setAddress (foldBusAddr (initDev chip ca).chipAddr logical),
                  BusEvent.busWriteRead 1 (logical &&& 0xFF) len])))
    ∧ foldBusAddr (initDev AT24C16 0).chipAddr 0x300 = 0x53
    ∧ (0x300 : Nat) &&& 0xFF = 0 := by
  refine ⟨?_, by decide, by decide⟩
  intro chip hchip ca logical len hlog hval
  fin_cases hchip
  · simp only [initDev_c04] at hlog hval ⊢
    refine ⟨foldBusAddr_formula ca logical 1 (by omega) ?_, ?_⟩
    · have h2 : (2 : Nat) ^ (8 + 1) = 512 := by norm_num
      omega
    · rw [readN_valid _ _ _ (by simp) hval, and_FF]
      simp
  · simp only [initDev_c08] at hlog hval ⊢
    refine ⟨foldBusAddr_formula ca logical 2 (by omega) ?_, ?_⟩
    · have h2 : (2 : Nat) ^ (8 + 2) = 1024 := by norm_num
      omega
    · rw [readN_valid _ _ _ (by simp) hval, and_FF]
      simp
  · simp only [initDev_c16] at hlog hval ⊢
    refine ⟨foldBusAddr_formula ca logical 3 (by omega) ?_, ?_⟩
    · have h2 : (2 : Nat) ^ (8 + 3) = 2048 := by norm_num
      omega
    · rw [readN_valid _ _ _ (by simp) hval, and_FF]
      simp

/-- Witness for C2 at the claim's instance: AT24C16, bus base 0x50, logical
address 0x300, read of 4 bytes. -/
theorem C2_address_folding_witness :
    foldBusAddr (initDev AT24C16 0).chipAddr 0x300
        = (((initDev AT24C16 0).chipAddr &&& 0xF8)
            ||| ((0x300 >>> 8) &&& (2 ^ (initDev AT24C16 0).addrOvBits - 1)))
    ∧ (initDev AT24C16 0).readN 0x300 4
        = (true,
           [BusEvent.setAddress (foldBusAddr (initDev AT24C16 0).chipAddr 0x300),
            BusEvent.busWriteRead 1 (0x300 &&& 0xFF) 4]) :=
  C2_address_folding.1 AT24C16 (by decide) 0 0x300 4 (by decide) (by decide)

/-- C6: on the overflow-bit profiles, the trace of a valid write is exactly,
chunk by chunk in address order: a `setAddress` whose bus address is folded
from that chunk's own start address (`address + bytes_sent`, not the request's
start), then the chunk's bus write, then the settle delay. -/
theorem C6_per_chunk_bus_address :
    ∀ chip ∈ foldChipList, ∀ ca address len,
      address + len ≤ (initDev chip ca).chipSize →
      ((initDev chip ca).writeN address len).2
        = (((initDev chip ca).writeChunks address len).map
            (chunkTrace1 (initDev chip ca).chipAddr address)).flatten := by
  intro chip hchip ca address len hval
  fin_cases hchip
  · exact writeN_trace_fold _ _ _ (initDev_mode_ne AT24C04 ca) hval
      (by simp [initDev_c04]) rfl
  · exact writeN_trace_fold _ _ _ (initDev_mode_ne AT24C08 ca) hval
      (by simp [initDev_c08]) rfl
  · exact writeN_trace_fold _ _ _ (initDev_mode_ne AT24C16 ca) hval
      (by simp [initDev_c16]) rfl

/-- Witness for C6: AT24C16, a 32-byte write at 0x2F0 that crosses both a page
boundary and a fold boundary (0x2FF to 0x300). -/
theorem C6_per_chunk_bus_address_witness :
    ((initDev AT24C16 0).writeN 0x2F0 32).2
      = (((initDev AT24C16 0).writeChunks 0x2F0 32).map
          (chunkTrace1 (initDev AT24C16 0).chipAddr 0x2F0)).flatten :=
  C6_per_chunk_bus_address AT24C16 (by decide) 0 0x2F0 32 (by decide)

/-- C8: a valid read is never chunked: `readN` translates the address once
(folding from the request's starting address only), issues exactly one
combined write-address-then-read transaction with no settle delay, and
returns success. -/
theorem C8_read_single_transaction :
    ∀ chip ∈ at24ChipList, ∀ ca address len,
      address + len ≤ (initDev chip ca).chipSize →
      (initDev chip ca).readN address len = (true,
        (if (initDev chip ca).addrOvBits ≠ 0 then
           [BusEvent.setAddress (foldBusAddr (initDev chip ca).chipAddr address)]
         else [])
        ++ [(if 1 < (initDev chip ca).addrBytes then
               BusEvent.busWriteRead 2 (address % 65536) len
             else BusEvent.busWriteRead 1 (address % 256) len)]) := by
  intro chip _ ca address len hval
  exact readN_valid _ _ _ (initDev_mode_ne chip ca) hval

/-- Witness for C8: AT24C512, reading 100 bytes at address 40000. -/
theorem C8_read_single_transaction_witness :
    (initDev AT24C512 0).readN 40000 100 = (true,
      (if (initDev AT24C512 0).addrOvBits ≠ 0 then
         [BusEvent.setAddress (foldBusAddr (initDev AT24C512 0).chipAddr 40000)]
       else [])
      ++ [(if 1 < (initDev AT24C512 0).addrBytes then
             BusEvent.busWriteRead 2 (40000 % 65536) 100
           else BusEvent.busWriteRead 1 (40000 % 256) 100)]) :=
  C8_read_single_transaction AT24C512 (by decide) 0 40000 100 (by decide)

/-- C10: on an initialized device with address ≤ capacity, a zero-length write
is accepted, not skipped: the loop bound evaluates to 1, so exactly one
zero-length bus write is issued followed by one settle delay, and the call
returns true; likewise a zero-length read returns true and issues one
zero-length combined transaction. -/
theorem C10_zero_length_requests :
    ∀ chip ∈ at24ChipList, ∀ ca address,
      address ≤ (initDev chip ca).chipSize →
      ((initDev chip ca).writeN address 0 = (true,
          (if (initDev chip ca).addrOvBits ≠ 0 then
             [BusEvent.setAddress (foldBusAddr (initDev chip ca).chipAddr address)]
           else [])
          ++ [(if 1 < (initDev chip ca).addrBytes then
                 BusEvent.busWrite 2 (address % 65536) 0 0
               else BusEvent.busWrite 1 (address % 256) 0 0),
              BusEvent.delayMs EEPROM_WRITE_CYCLE_TIME_MS])
        ∧ (initDev chip ca).readN address 0 = (true,
          (if (initDev chip ca).addrOvBits ≠ 0 then
             [BusEvent.setAddress (foldBusAddr (initDev chip ca).chipAddr address)]
           else [])
          ++ [(if 1 < (initDev chip ca).addrBytes then
                 BusEvent.busWriteRead 2 (address % 65536) 0
               else BusEvent.busWriteRead 1 (address % 256) 0)])) := by
  intro chip hchip ca address hval
  exact ⟨writeN_len_zero _ _ (initDev_mode_ne chip ca)
      (pageSize_pos chip hchip ca) hval,
    readN_valid _ _ _ (initDev_mode_ne chip ca) (by omega)⟩

/-- Witness for C10: AT24C16 at address 0x300 — the zero-length write still
folds the address, issues one empty bus write, and delays once. -/
theorem C10_zero_length_requests_witness :
    (initDev AT24C16 0).writeN 0x300 0 = (true,
        (if (initDev AT24C16 0).addrOvBits ≠ 0 then
           [BusEvent.setAddress (foldBusAddr (initDev AT24C16 0).chipAddr 0x300)]
         else [])
        ++ [(if 1 < (initDev AT24C16 0).addrBytes then
               BusEvent.busWrite 2 (0x300 % 65536) 0 0
             else BusEvent.busWrite 1 (0x300 % 256) 0 0),
            BusEvent.delayMs EEPROM_WRITE_CYCLE_TIME_MS])
    ∧ (initDev AT24C16 0).readN 0x300 0 = (true,
        (if (initDev AT24C16 0).addrOvBits ≠ 0 then
           [BusEvent.setAddress (foldBusAddr (initDev AT24C16 0).chipAddr 0x300)]
         else [])
        ++ [(if 1 < (initDev AT24C16 0).addrBytes then
               BusEvent.busWriteRead 2 (0x300 % 65536) 0
             else BusEvent.busWriteRead 1 (0x300 % 256) 0)]) :=
  C10_zero_length_requests AT24C16 (by decide) 0 0x300 (by decide)
